import Mathlib

/-!
Verification of the WareWoolf collaborative-editing core: a shallow
embedding of the `WoolfOTDocument` operational-transform document model
and of the `WoolfDirectorBridge` control-bus client, together with
theorems settling the specified properties of versioning, range locks,
suggestions, quick corrections, transactions, change-log delivery and
request teardown.

Modelling conventions:
  * the external Quill editor is modelled by its text buffer, a
    `List Char`; `quill.insertText` / `quill.deleteText` /
    `quill.getText` become `insertText` / `deleteText` / `getRangeText`;
  * `Date.now()` is an explicit `now : Nat` argument on every operation
    that reads the clock;
  * JavaScript `Map`s (insertion ordered) are association lists
    `List (Nat × _)` appended at the end;
  * a method that can `throw` returns `Except String _ × OTDoc`: the
    document state is returned on both paths, because a throwing method
    may already have mutated state (lock purging) before it throws;
  * subscriber callbacks are `ChangeRecord → Except String Unit`; the
    `try/catch` wrapped around each callback in `notifySubscribers`
    becomes a `match` that records the failure and continues;
  * `setTimeout`-scheduled auto-unlocks are recorded in a `lockTimers`
    field; a timer that fires is a separate explicit transition.
-/

namespace Woolf

/-- A half-open character range of the buffer: the positions
`index, index+1, ..., index+length-1`. -/
structure Range where
  index : Nat
  length : Nat
deriving Repr, DecidableEq

/-- A Quill delta operation, as consumed by `quill.updateContents`. -/
inductive DeltaOp where
  | retain (n : Nat)
  | insert (text : List Char)
  | delete (n : Nat)
deriving Repr, DecidableEq

/-- The payload of a change-log entry, one constructor per mutation
primitive of `WoolfOTDocument`. -/
inductive ChangeData where
  | insert (index : Nat) (text : List Char)
  | delete (index : Nat) (length : Nat)
  | replace (index : Nat) (oldLength : Nat) (newText : List Char)
  | delta (ops : List DeltaOp)
deriving Repr, DecidableEq

/-- One entry of the change log; `logChange` stamps the current version
and timestamp onto the change payload. -/
structure ChangeRecord where
  data : ChangeData
  userId : String
  version : Nat
  timestamp : Nat
deriving Repr, DecidableEq

/-- A range lock: `lockRange` fills `expiresAt` with `now + duration`. -/
structure RangeLock where
  lockId : Nat
  userId : String
  range : Range
  timestamp : Nat
  expiresAt : Nat
deriving Repr, DecidableEq

/-- Status of a suggestion. -/
inductive SuggStatus where
  | pending
  | accepted
  | rejected
deriving Repr, DecidableEq

/-- The string the source interpolates into the already-decided error
message. -/
def SuggStatus.text : SuggStatus → String
  | .pending => "pending"
  | .accepted => "accepted"
  | .rejected => "rejected"

/-- An LLM suggestion as stored by `suggestEdit`. -/
structure Suggestion where
  suggestionId : Nat
  userId : String
  range : Range
  newText : List Char
  oldText : List Char
  status : SuggStatus
  createdAt : Nat
  acceptedBy : Option String := none
  acceptedAt : Option Nat := none
  rejectedBy : Option String := none
  rejectedAt : Option Nat := none
  rejectionReason : String := ""
deriving Repr, DecidableEq

/-- A quick correction as stored by `applyQuickCorrection`. -/
structure Correction where
  correctionId : Nat
  userId : String
  range : Range
  original : List Char
  applied : List Char
  alternates : List (List Char)
  timestamp : Nat
  version : Nat
  reverted : Bool := false
  revertedBy : Option String := none
  revertedAt : Option Nat := none
deriving Repr, DecidableEq

/-- A transaction object as built by `beginTransaction`; the source
initialises `changes` to an empty array and never appends to it. -/
structure Transaction where
  userId : String
  startVersion : Nat
  changes : List ChangeRecord
  startedAt : Nat
  committedAt : Option Nat := none
  endVersion : Option Nat := none
  rolledBack : Bool := false
  rolledBackAt : Option Nat := none
deriving Repr, DecidableEq

/-- The in-memory `WoolfOTDocument` state. Cursor, selection, presence
and the annotation store are independent of every property proved here
and are omitted. -/
structure OTDoc where
  buffer : List Char
  documentId : String
  version : Nat
  changeLog : List ChangeRecord
  changeSubscribers : List (Nat × (ChangeRecord → Except String Unit))
  subscriberCounter : Nat
  suggestions : List (Nat × Suggestion)
  suggestionCounter : Nat
  corrections : List (Nat × Correction)
  correctionCounter : Nat
  currentTransaction : Option Transaction
  transactionStack : List Transaction
  rangeLocks : List (Nat × RangeLock)
  lockCounter : Nat
  lockTimers : List (Nat × Nat × String)

/-- A fresh document over an initial buffer, as the constructor builds it. -/
def mkDoc (s : String) : OTDoc where
  buffer := s.toList
  documentId := "default"
  version := 0
  changeLog := []
  changeSubscribers := []
  subscriberCounter := 0
  suggestions := []
  suggestionCounter := 0
  corrections := []
  correctionCounter := 0
  currentTransaction := none
  transactionStack := []
  rangeLocks := []
  lockCounter := 0
  lockTimers := []

/-- Lookup in an insertion-ordered map (`Map.get`); keys are unique. -/
def mapGet {α : Type} : List (Nat × α) → Nat → Option α
  | [], _ => none
  | p :: rest, k => if p.1 = k then some p.2 else mapGet rest k

/-- In-place update of the value stored at an existing key (the source
mutates the stored object, which keeps its position in the map). -/
def mapSet {α : Type} : List (Nat × α) → Nat → α → List (Nat × α)
  | [], _, _ => []
  | p :: rest, k, v => if p.1 = k then (k, v) :: rest else p :: mapSet rest k v

/-- Success test for an `Except` result. -/
def isOk {ε α : Type} : Except ε α → Bool
  | .ok _ => true
  | .error _ => false

/-- Cap of the change log (`this.maxLogSize = 1000`, never reassigned). -/
def maxLogSize : Nat := 1000

/-- Trim of the change log: the source keeps `slice(-maxLogSize)`, the
most recent `maxLogSize` entries. -/
def trimLog (log : List ChangeRecord) : List ChangeRecord :=
  if log.length > maxLogSize then log.drop (log.length - maxLogSize) else log

/-- Delivery of one change to every subscriber in registration order.
The source wraps each callback in try/catch, so a throwing callback is
recorded as failed (`false`) and delivery continues with the rest. -/
def notifySubscribers (change : ChangeRecord) :
    List (Nat × (ChangeRecord → Except String Unit)) → List (Nat × Bool)
  | [] => []
  | (sid, cb) :: rest =>
    match cb change with
    | .ok _ => (sid, true) :: notifySubscribers change rest
    | .error _ => (sid, false) :: notifySubscribers change rest

/-- What `logChange` returns and observes: the stamped entry and the
notification trace. -/
structure LogOutcome where
  entry : ChangeRecord
  delivered : List (Nat × Bool)
deriving Repr

/-- Append one change to the log: stamp it with the current version and
timestamp, push it, trim the log to its cap, notify the subscribers. -/
def logChange (d : OTDoc) (now : Nat) (userId : String) (data : ChangeData) :
    LogOutcome × OTDoc :=
  let entry : ChangeRecord := { data := data, userId := userId, version := d.version, timestamp := now }
  let log := trimLog (d.changeLog ++ [entry])
  ({ entry := entry, delivered := notifySubscribers entry d.changeSubscribers },
   { d with changeLog := log })

/-- All log entries with a version strictly above `sinceVersion`
(`getChangesSince`). -/
def getChangesSince (d : OTDoc) (sinceVersion : Nat) : List ChangeRecord :=
  d.changeLog.filter fun c => sinceVersion < c.version

/-- Overlap test between two ranges (`rangesOverlap`). -/
def rangesOverlap (r1 r2 : Range) : Bool :=
  let end1 := r1.index + r1.length
  let end2 := r2.index + r2.length
  decide (r1.index < end2) && decide (r2.index < end1)

/-- Lock query of the mutation primitives (`isRangeLocked`). The source
iterates the lock map, deleting every expired lock it passes, and
returns true at the first live lock of another user that overlaps; the
locks after that point stay untouched. The second component is the lock
map as the iteration leaves it. -/
def isRangeLocked (now : Nat) (r : Range) (userId : String) :
    List (Nat × RangeLock) → Bool × List (Nat × RangeLock)
  | [] => (false, [])
  | (lid, lock) :: rest =>
    if lock.expiresAt < now then
      isRangeLocked now r userId rest
    else if lock.userId ≠ userId ∧ rangesOverlap r lock.range = true then
      (true, (lid, lock) :: rest)
    else
      let out := isRangeLocked now r userId rest
      (out.1, (lid, lock) :: out.2)

/-- Conflict predicate of `lockRange`: an existing lock of a different
user that overlaps the requested range. `lockRange` does not test
expiry. -/
def lockConflict (userId : String) (r : Range) (p : Nat × RangeLock) : Bool :=
  rangesOverlap r p.2.range && decide (p.2.userId ≠ userId)

/-- Acquire a range lock (`lockRange`): throws at the first existing
overlapping lock of a different user, else stores the lock and schedules
an auto-unlock timer at `now + duration`. -/
def lockRange (d : OTDoc) (now : Nat) (userId : String) (index len duration : Nat) :
    Except String RangeLock × OTDoc :=
  match d.rangeLocks.find? (lockConflict userId ⟨index, len⟩) with
  | some p => (.error ("Range already locked by " ++ p.2.userId), d)
  | none =>
    let lockId := d.lockCounter + 1
    let lock : RangeLock :=
      { lockId := lockId, userId := userId, range := ⟨index, len⟩,
        timestamp := now, expiresAt := now + duration }
    (.ok lock,
     { d with lockCounter := lockId,
              rangeLocks := d.rangeLocks ++ [(lockId, lock)],
              lockTimers := d.lockTimers ++ [(now + duration, lockId, userId)] })

/-- Release a lock (`unlockRange`): a missing lock reports failure
without throwing, a non-owner throws, the owner removes the lock. -/
def unlockRange (d : OTDoc) (lockId : Nat) (userId : String) :
    Except String Bool × OTDoc :=
  match mapGet d.rangeLocks lockId with
  | none => (.ok false, d)
  | some lock =>
    if lock.userId ≠ userId then
      (.error "Cannot unlock range locked by another user", d)
    else
      (.ok true, { d with rangeLocks := d.rangeLocks.filter fun q => q.1 != lockId })

/-- Text splice of `quill.insertText`. -/
def insertText (buf : List Char) (index : Nat) (text : List Char) : List Char :=
  buf.take index ++ text ++ buf.drop index

/-- Text splice of `quill.deleteText`. -/
def deleteText (buf : List Char) (index len : Nat) : List Char :=
  buf.take index ++ buf.drop (index + len)

/-- Read of `quill.getText(index, length)`. -/
def getRangeText (buf : List Char) (index len : Nat) : List Char :=
  (buf.drop index).take len

/-- Effect of `quill.updateContents` on the buffer for a delta. -/
def applyDeltaOps : List DeltaOp → List Char → List Char
  | [], buf => buf
  | .retain n :: rest, buf => buf.take n ++ applyDeltaOps rest (buf.drop n)
  | .insert t :: rest, buf => t ++ applyDeltaOps rest buf
  | .delete n :: rest, buf => applyDeltaOps rest (buf.drop n)

/-- Index transform of the simplified OT (`transformIndex` returns the
index as-is). -/
def transformIndex (index : Nat) : Nat := index

/-- Insert text at a position (`insertAt`): throws on a lock conflict
before touching anything else, otherwise splices the text, increments
the version and appends one log entry. -/
def insertAt (d : OTDoc) (now index : Nat) (text : List Char) (userId : String) :
    Except String LogOutcome × OTDoc :=
  match isRangeLocked now ⟨index, text.length⟩ userId d.rangeLocks with
  | (true, locks) =>
    (.error "Range is locked by another user", { d with rangeLocks := locks })
  | (false, locks) =>
    let d1 := { d with rangeLocks := locks,
                       buffer := insertText d.buffer (transformIndex index) text,
                       version := d.version + 1 }
    let r := logChange d1 now userId (.insert (transformIndex index) text)
    (.ok r.1, r.2)

/-- Delete a range (`deleteRange`). -/
def deleteRange (d : OTDoc) (now index len : Nat) (userId : String) :
    Except String LogOutcome × OTDoc :=
  match isRangeLocked now ⟨index, len⟩ userId d.rangeLocks with
  | (true, locks) =>
    (.error "Range is locked by another user", { d with rangeLocks := locks })
  | (false, locks) =>
    let d1 := { d with rangeLocks := locks,
                       buffer := deleteText d.buffer (transformIndex index) len,
                       version := d.version + 1 }
    let r := logChange d1 now userId (.delete (transformIndex index) len)
    (.ok r.1, r.2)

/-- Replace a range (`replaceRange`): delete then insert at the same
index, one version increment, one log entry. -/
def replaceRange (d : OTDoc) (now index len : Nat) (text : List Char) (userId : String) :
    Except String LogOutcome × OTDoc :=
  match isRangeLocked now ⟨index, len⟩ userId d.rangeLocks with
  | (true, locks) =>
    (.error "Range is locked by another user", { d with rangeLocks := locks })
  | (false, locks) =>
    let d1 := { d with rangeLocks := locks,
                       buffer := insertText (deleteText d.buffer (transformIndex index) len)
                                    (transformIndex index) text,
                       version := d.version + 1 }
    let r := logChange d1 now userId (.replace (transformIndex index) len text)
    (.ok r.1, r.2)

/-- Apply a Quill delta (`applyDelta`): no lock check, one version
increment, one log entry. -/
def applyDelta (d : OTDoc) (now : Nat) (ops : List DeltaOp) (userId : String) :
    Except String LogOutcome × OTDoc :=
  let d1 := { d with buffer := applyDeltaOps ops d.buffer,
                     version := d.version + 1 }
  let r := logChange d1 now userId (.delta ops)
  (.ok r.1, r.2)

/-- Record a suggestion (`suggestEdit`): captures the current text of
the range and stores the suggestion as pending; the buffer is not
touched. -/
def suggestEdit (d : OTDoc) (now : Nat) (userId : String) (index len : Nat)
    (newText : List Char) : Suggestion × OTDoc :=
  let sid := d.suggestionCounter + 1
  let s : Suggestion :=
    { suggestionId := sid, userId := userId, range := ⟨index, len⟩,
      newText := newText, oldText := getRangeText d.buffer index len,
      status := .pending, createdAt := now }
  (s, { d with suggestionCounter := sid, suggestions := d.suggestions ++ [(sid, s)] })

/-- Accept a suggestion (`acceptSuggestion`): throws when unknown or not
pending; otherwise performs the replace-range mutation and only then
marks the record accepted. A throw from `replaceRange` propagates with
the record untouched. -/
def acceptSuggestion (d : OTDoc) (now sid : Nat) (acceptingUserId : String) :
    Except String Suggestion × OTDoc :=
  match mapGet d.suggestions sid with
  | none => (.error "Suggestion not found", d)
  | some s =>
    if s.status ≠ SuggStatus.pending then
      (.error ("Suggestion already " ++ s.status.text), d)
    else
      match replaceRange d now s.range.index s.range.length s.newText acceptingUserId with
      | (.error e, d1) => (.error e, d1)
      | (.ok _, d1) =>
        let s1 := { s with status := SuggStatus.accepted,
                           acceptedBy := some acceptingUserId,
                           acceptedAt := some now }
        (.ok s1, { d1 with suggestions := mapSet d1.suggestions sid s1 })

/-- Reject a suggestion (`rejectSuggestion`): the source only checks
that the suggestion exists — it does NOT check the status, so any
non-missing suggestion (pending or already decided) is overwritten to
rejected. -/
def rejectSuggestion (d : OTDoc) (now sid : Nat) (rejectingUserId reason : String) :
    Except String Suggestion × OTDoc :=
  match mapGet d.suggestions sid with
  | none => (.error "Suggestion not found", d)
  | some s =>
    let s1 := { s with status := SuggStatus.rejected,
                       rejectedBy := some rejectingUserId,
                       rejectedAt := some now,
                       rejectionReason := reason }
    (.ok s1, { d with suggestions := mapSet d.suggestions sid s1 })

/-- Apply a quick correction (`applyQuickCorrection`): allocates the id,
performs delete then insert through the primitives (each may throw on a
lock conflict; the counter is already advanced when that happens), then
records the correction, evicting the oldest entry past the cap of 100. -/
def applyQuickCorrection (d0 : OTDoc) (now : Nat) (userId : String) (index len : Nat)
    (original correction : List Char) (alternates : List (List Char)) :
    Except String Correction × OTDoc :=
  let cid := d0.correctionCounter + 1
  let d := { d0 with correctionCounter := cid }
  match deleteRange d now index len userId with
  | (.error e, d1) => (.error e, d1)
  | (.ok _, d1) =>
    match insertAt d1 now index correction userId with
    | (.error e, d2) => (.error e, d2)
    | (.ok _, d2) =>
      let info : Correction :=
        { correctionId := cid, userId := userId,
          range := ⟨index, correction.length⟩,
          original := original, applied := correction,
          alternates := alternates, timestamp := now, version := d2.version }
      let m := d2.corrections ++ [(cid, info)]
      let m := if m.length > 100 then m.drop 1 else m
      (.ok info, { d2 with corrections := m })

/-- What `revertCorrection` returns. -/
structure RevertOutcome where
  correctionId : Nat
  reverted : Bool
  originalText : List Char
  version : Nat
deriving Repr, DecidableEq

/-- Revert a quick correction (`revertCorrection`): throws only when the
id is unknown — a record that was already reverted is happily reverted
again (delete plus insert re-applied); the record is marked reverted. -/
def revertCorrection (d : OTDoc) (now cid : Nat) (userId : String) :
    Except String RevertOutcome × OTDoc :=
  match mapGet d.corrections cid with
  | none => (.error ("Correction " ++ toString cid ++ " not found"), d)
  | some c =>
    match deleteRange d now c.range.index c.range.length userId with
    | (.error e, d1) => (.error e, d1)
    | (.ok _, d1) =>
      match insertAt d1 now c.range.index c.original userId with
      | (.error e, d2) => (.error e, d2)
      | (.ok _, d2) =>
        let c1 := { c with reverted := true,
                           revertedBy := some userId,
                           revertedAt := some now }
        (.ok { correctionId := cid, reverted := true,
               originalText := c.original, version := d2.version },
         { d2 with corrections := mapSet d2.corrections cid c1 })

/-- Open a transaction (`beginTransaction`): throws while one is open;
records the start version; pushes the object onto the stack. The source
applies NO buffering: later mutation primitives run exactly as outside a
transaction. -/
def beginTransaction (d : OTDoc) (now : Nat) (userId : String) :
    Except String Transaction × OTDoc :=
  match d.currentTransaction with
  | some _ => (.error "Transaction already in progress", d)
  | none =>
    let t : Transaction :=
      { userId := userId, startVersion := d.version, changes := [], startedAt := now }
    (.ok t, { d with currentTransaction := some t,
                     transactionStack := d.transactionStack ++ [t] })

/-- Commit (`commitTransaction`): stamps the object and clears the slot.
It replays nothing, appends no log entry and leaves the version alone. -/
def commitTransaction (d : OTDoc) (now : Nat) :
    Except String Transaction × OTDoc :=
  match d.currentTransaction with
  | none => (.error "No transaction in progress", d)
  | some t =>
    let t1 := { t with committedAt := some now, endVersion := some d.version }
    (.ok t1, { d with currentTransaction := none })

/-- Rollback (`rollbackTransaction`): marks the object rolled back and
clears the slot. It undoes nothing — the buffer, version and log keep
whatever the in-transaction mutations did to them. -/
def rollbackTransaction (d : OTDoc) (now : Nat) :
    Except String Transaction × OTDoc :=
  match d.currentTransaction with
  | none => (.error "No transaction in progress", d)
  | some t =>
    let t1 := { t with rolledBack := true, rolledBackAt := some now }
    (.ok t1, { d with currentTransaction := none })

/-- One mutation-primitive call, for stating properties of call
sequences. -/
inductive MutOp where
  | ins (index : Nat) (text : List Char) (userId : String)
  | del (index len : Nat) (userId : String)
  | rep (index len : Nat) (text : List Char) (userId : String)
  | bat (ops : List DeltaOp) (userId : String)

/-- Dispatch one mutation-primitive call. -/
def runMutOp (d : OTDoc) (now : Nat) : MutOp → Except String LogOutcome × OTDoc
  | .ins i t u => insertAt d now i t u
  | .del i l u => deleteRange d now i l u
  | .rep i l t u => replaceRange d now i l t u
  | .bat ops u => applyDelta d now ops u

/-- Run a sequence of mutation-primitive calls, `none` as soon as one
throws. -/
def runMutOps (d : OTDoc) (now : Nat) : List MutOp → Option OTDoc
  | [] => some d
  | op :: rest =>
    match runMutOp d now op with
    | (.ok _, d1) => runMutOps d1 now rest
    | (.error _, _) => none

/-- State of the control-bus client `WoolfDirectorBridge`. A request
promise is settled exactly when an entry for its id is appended to
`settled` (`true` = resolved, `false` = rejected); `pendingRequests`
mirrors the `pendingRequests` map of promise handlers. -/
structure DirectorBridge where
  requestCounter : Nat
  pendingRequests : List Nat
  settled : List (Nat × Bool)
  listenerActive : Bool
deriving Repr, DecidableEq

namespace DirectorBridge

/-- The constructor: installs the message listener, empty maps. -/
def init : DirectorBridge where
  requestCounter := 0
  pendingRequests := []
  settled := []
  listenerActive := true

/-- Send a command (`run`): allocate the next request id, store the
promise handlers, post the message; a 30-second timeout is scheduled
(see `fireTimeout`). Returns the request id. -/
def run (b : DirectorBridge) : Nat × DirectorBridge :=
  let rid := b.requestCounter + 1
  (rid, { b with requestCounter := rid,
                 pendingRequests := b.pendingRequests ++ [rid] })

/-- A response envelope arrives (`handleControlResponse`): a response
for an unknown or already-settled id is dropped; otherwise the promise
is resolved or rejected and the entry removed. After `destroy` the
listener is removed, so nothing is delivered. -/
def handleControlResponse (b : DirectorBridge) (rid : Nat) (success : Bool) :
    DirectorBridge :=
  if b.listenerActive ∧ rid ∈ b.pendingRequests then
    { b with pendingRequests := b.pendingRequests.filter fun x => x != rid,
             settled := b.settled ++ [(rid, success)] }
  else b

/-- The 30-second timeout of `run` fires: it rejects the promise only if
the id is still in the map. -/
def fireTimeout (b : DirectorBridge) (rid : Nat) : DirectorBridge :=
  if rid ∈ b.pendingRequests then
    { b with pendingRequests := b.pendingRequests.filter fun x => x != rid,
             settled := b.settled ++ [(rid, false)] }
  else b

/-- Tear down (`destroy`): removes the message listener and clears the
pending-request map. It does NOT reject (or resolve) the pending
promises: `settled` is untouched. -/
def destroy (b : DirectorBridge) : DirectorBridge :=
  { b with listenerActive := false, pendingRequests := [] }

end DirectorBridge

/-! ### Concrete scenario states

Small concrete documents and runs used by the counterexamples and the
witnesses below. -/

/-- The rollback scenario of the repository's own control-bus test:
begin a transaction, insert " modified" at index 13 of "Original text",
roll back. -/
def c1doc : OTDoc := mkDoc "Original text"

/-- The state after begin, one in-transaction insert, and rollback. -/
def c1run : OTDoc :=
  (rollbackTransaction
    (insertAt (beginTransaction c1doc 0 "user1").2 0 13 " modified".toList "user1").2 0).2

/-- The commit scenario of the repository's own unit test: begin a
transaction, insert "A" at 5 and "B" at 6, commit. -/
def c2doc : OTDoc := mkDoc "Base text"

/-- The state after begin, two in-transaction inserts, and commit. -/
def c2run : OTDoc :=
  (commitTransaction
    (insertAt (insertAt (beginTransaction c2doc 0 "user1").2 0 5 ['A'] "user1").2
      0 6 ['B'] "user1").2 0).2

/-- A document holding one lock of alice over `[0, 10)` that expired at
time 50 (its auto-unlock timer has not fired). -/
def c3doc : OTDoc :=
  { mkDoc "0123456789" with
    rangeLocks := [(1, { lockId := 1, userId := "alice", range := ⟨0, 10⟩,
                         timestamp := 0, expiresAt := 50 })],
    lockCounter := 1 }

/-- A live lock of user A over `[10, 30)`. -/
def c4lock : RangeLock :=
  { lockId := 1, userId := "A", range := ⟨10, 20⟩, timestamp := 0, expiresAt := 100 }

/-- A document whose only lock is `c4lock`. -/
def c4doc : OTDoc :=
  { mkDoc "0123456789012345678901234567890123456789" with
    rangeLocks := [(1, c4lock)], lockCounter := 1 }

/-- A document with one pending suggestion replacing "Hello" by "Howdy". -/
def c5doc : OTDoc := (suggestEdit (mkDoc "Hello World") 0 "llm" 0 5 "Howdy".toList).2

/-- The suggestion record `suggestEdit` stored in `c5doc`. -/
def c5sugg : Suggestion :=
  { suggestionId := 1, userId := "llm", range := ⟨0, 5⟩,
    newText := "Howdy".toList, oldText := "Hello".toList,
    status := SuggStatus.pending, createdAt := 0 }

/-- A small document for the version-counting witness. -/
def c6doc : OTDoc := mkDoc "Hello"

/-- Four successful mutation-primitive calls, one of each kind. -/
def c6ops : List MutOp :=
  [.ins 0 ['a', 'b'] "u1", .del 1 1 "u1", .rep 0 2 ['x'] "u1",
   .bat [.retain 1, .insert ['z']] "u1"]

/-- The state after running `c6ops`. -/
def c6run : OTDoc := (runMutOps c6doc 0 c6ops).getD c6doc

/-- A subscriber callback that always throws. -/
def c7cb : ChangeRecord → Except String Unit := fun _ => .error "boom"

/-- A subscriber callback that always succeeds. -/
def c7ok : ChangeRecord → Except String Unit := fun _ => .ok ()

/-- A document whose first subscriber throws and whose second does not. -/
def c7doc : OTDoc :=
  { mkDoc "Hi" with changeSubscribers := [(1, c7cb), (2, c7ok)], subscriberCounter := 2 }

/-- A document for the correction scenario: "teh cat". -/
def c8doc : OTDoc := mkDoc "teh cat"

/-- The state after `applyQuickCorrection` of "teh" to "the" at 0. -/
def c8applied : OTDoc :=
  (applyQuickCorrection c8doc 0 "bot" 0 3 "teh".toList "the".toList []).2

/-- The state after reverting that correction once. -/
def c8reverted : OTDoc := (revertCorrection c8applied 1 1 "human").2

/-- The bridge after one `run` call: request 1 is pending. -/
def c9bridge : DirectorBridge := (DirectorBridge.init.run).2

/-- A pending suggestion over `[2, 5)`. -/
def c10sugg : Suggestion :=
  { suggestionId := 1, userId := "llm", range := ⟨2, 3⟩,
    newText := "XY".toList, oldText := "llo".toList,
    status := SuggStatus.pending, createdAt := 0 }

/-- A live lock of user A over `[0, 4)`, overlapping `c10sugg`. -/
def c10lock : RangeLock :=
  { lockId := 1, userId := "A", range := ⟨0, 4⟩, timestamp := 0, expiresAt := 100 }

/-- A document holding both `c10sugg` and `c10lock`. -/
def c10doc : OTDoc :=
  { mkDoc "Hello World" with
    suggestions := [(1, c10sugg)], suggestionCounter := 1,
    rangeLocks := [(1, c10lock)], lockCounter := 1 }

/-! ### Helper lemmas -/

theorem rangesOverlap_iff (r1 r2 : Range) :
    rangesOverlap r1 r2 = true ↔
      r1.index < r2.index + r2.length ∧ r2.index < r1.index + r1.length := by
  simp [rangesOverlap]

theorem isRangeLocked_single_conflict (now : Nat) (r : Range) (u : String)
    (lid : Nat) (lock : RangeLock)
    (hlive : now ≤ lock.expiresAt) (hdiff : lock.userId ≠ u)
    (hov : rangesOverlap r lock.range = true) :
    isRangeLocked now r u [(lid, lock)] = (true, [(lid, lock)]) := by
  simp [isRangeLocked, hov, hdiff, Nat.not_lt.mpr hlive]

theorem isRangeLocked_single_owner (now : Nat) (r : Range)
    (lid : Nat) (lock : RangeLock) (hlive : now ≤ lock.expiresAt) :
    isRangeLocked now r lock.userId [(lid, lock)] = (false, [(lid, lock)]) := by
  simp [isRangeLocked, Nat.not_lt.mpr hlive]

theorem insertAt_conflict (d : OTDoc) (now index : Nat) (text : List Char) (u : String)
    (h : isRangeLocked now ⟨index, text.length⟩ u d.rangeLocks = (true, d.rangeLocks)) :
    insertAt d now index text u = (.error "Range is locked by another user", d) := by
  simp [insertAt, h]

theorem deleteRange_conflict (d : OTDoc) (now index len : Nat) (u : String)
    (h : isRangeLocked now ⟨index, len⟩ u d.rangeLocks = (true, d.rangeLocks)) :
    deleteRange d now index len u = (.error "Range is locked by another user", d) := by
  simp [deleteRange, h]

theorem replaceRange_conflict (d : OTDoc) (now index len : Nat) (text : List Char) (u : String)
    (h : isRangeLocked now ⟨index, len⟩ u d.rangeLocks = (true, d.rangeLocks)) :
    replaceRange d now index len text u = (.error "Range is locked by another user", d) := by
  simp [replaceRange, h]

theorem insertAt_ok (d : OTDoc) (now index : Nat) (text : List Char) (u : String)
    (h : (isRangeLocked now ⟨index, text.length⟩ u d.rangeLocks).1 = false) :
    isOk (insertAt d now index text u).1 = true := by
  unfold insertAt
  cases hh : isRangeLocked now ⟨index, text.length⟩ u d.rangeLocks with
  | mk b locks =>
    rw [hh] at h
    cases b
    · simp [isOk]
    · simp at h

theorem deleteRange_ok (d : OTDoc) (now index len : Nat) (u : String)
    (h : (isRangeLocked now ⟨index, len⟩ u d.rangeLocks).1 = false) :
    isOk (deleteRange d now index len u).1 = true := by
  unfold deleteRange
  cases hh : isRangeLocked now ⟨index, len⟩ u d.rangeLocks with
  | mk b locks =>
    rw [hh] at h
    cases b
    · simp [isOk]
    · simp at h

theorem replaceRange_ok (d : OTDoc) (now index len : Nat) (text : List Char) (u : String)
    (h : (isRangeLocked now ⟨index, len⟩ u d.rangeLocks).1 = false) :
    isOk (replaceRange d now index len text u).1 = true := by
  unfold replaceRange
  cases hh : isRangeLocked now ⟨index, len⟩ u d.rangeLocks with
  | mk b locks =>
    rw [hh] at h
    cases b
    · simp [isOk]
    · simp at h

theorem insertAt_version (d : OTDoc) (now index : Nat) (text : List Char) (u : String)
    (r : LogOutcome) (d' : OTDoc) (h : insertAt d now index text u = (.ok r, d')) :
    d'.version = d.version + 1 := by
  unfold insertAt at h
  cases hh : isRangeLocked now ⟨index, text.length⟩ u d.rangeLocks with
  | mk b locks =>
    rw [hh] at h
    cases b
    · simp [logChange] at h
      obtain ⟨-, h2⟩ := h
      rw [← h2]
    · simp at h

theorem deleteRange_version (d : OTDoc) (now index len : Nat) (u : String)
    (r : LogOutcome) (d' : OTDoc) (h : deleteRange d now index len u = (.ok r, d')) :
    d'.version = d.version + 1 := by
  unfold deleteRange at h
  cases hh : isRangeLocked now ⟨index, len⟩ u d.rangeLocks with
  | mk b locks =>
    rw [hh] at h
    cases b
    · simp [logChange] at h
      obtain ⟨-, h2⟩ := h
      rw [← h2]
    · simp at h

theorem replaceRange_version (d : OTDoc) (now index len : Nat) (text : List Char) (u : String)
    (r : LogOutcome) (d' : OTDoc) (h : replaceRange d now index len text u = (.ok r, d')) :
    d'.version = d.version + 1 := by
  unfold replaceRange at h
  cases hh : isRangeLocked now ⟨index, len⟩ u d.rangeLocks with
  | mk b locks =>
    rw [hh] at h
    cases b
    · simp [logChange] at h
      obtain ⟨-, h2⟩ := h
      rw [← h2]
    · simp at h

theorem applyDelta_version (d : OTDoc) (now : Nat) (ops : List DeltaOp) (u : String)
    (r : LogOutcome) (d' : OTDoc) (h : applyDelta d now ops u = (.ok r, d')) :
    d'.version = d.version + 1 := by
  unfold applyDelta at h
  simp [logChange] at h
  obtain ⟨-, h2⟩ := h
  rw [← h2]

theorem runMutOp_version (d : OTDoc) (now : Nat) (op : MutOp)
    (r : LogOutcome) (d' : OTDoc) (h : runMutOp d now op = (.ok r, d')) :
    d'.version = d.version + 1 := by
  cases op with
  | ins i t u => exact insertAt_version d now i t u r d' (by simpa [runMutOp] using h)
  | del i l u => exact deleteRange_version d now i l u r d' (by simpa [runMutOp] using h)
  | rep i l t u => exact replaceRange_version d now i l t u r d' (by simpa [runMutOp] using h)
  | bat ops u => exact applyDelta_version d now ops u r d' (by simpa [runMutOp] using h)

theorem runMutOps_version (d : OTDoc) (now : Nat) (ops : List MutOp) (d' : OTDoc)
    (h : runMutOps d now ops = some d') :
    d'.version = d.version + ops.length := by
  induction ops generalizing d with
  | nil =>
    simp [runMutOps] at h
    simp [← h]
  | cons op rest ih =>
    unfold runMutOps at h
    cases hh : runMutOp d now op with
    | mk res dmid =>
      rw [hh] at h
      cases res with
      | error e => simp at h
      | ok r =>
        simp at h
        have h1 := runMutOp_version d now op r dmid hh
        have h2 := ih dmid h
        rw [h2, h1, List.length_cons]
        omega

theorem notifySubscribers_fst (c : ChangeRecord)
    (subs : List (Nat × (ChangeRecord → Except String Unit))) :
    (notifySubscribers c subs).map Prod.fst = subs.map Prod.fst := by
  induction subs with
  | nil => rfl
  | cons p rest ih =>
    obtain ⟨sid, cb⟩ := p
    unfold notifySubscribers
    cases cb c <;> simp [ih]

theorem trimLog_getLast (log : List ChangeRecord) (e : ChangeRecord) :
    (trimLog (log ++ [e])).getLast? = some e := by
  unfold trimLog
  split
  · have hk : (log ++ [e]).length - maxLogSize ≤ log.length := by
      simp [maxLogSize]
    rw [List.drop_append_of_le_length hk]
    exact List.getLast?_concat _
  · exact List.getLast?_concat _

theorem mapGet_mapSet_self {α : Type} (m : List (Nat × α)) (k : Nat) (v w : α)
    (h : mapGet m k = some w) : mapGet (mapSet m k v) k = some v := by
  induction m with
  | nil => simp [mapGet] at h
  | cons p rest ih =>
    by_cases hp : p.1 = k
    · simp [mapGet, mapSet, hp]
    · simp only [mapGet, mapSet, hp, if_false, if_neg hp] at h ⊢
      exact ih h

theorem mapGet_append_fresh {α : Type} (m : List (Nat × α)) (k : Nat) (v : α)
    (h : mapGet m k = none) : mapGet (m ++ [(k, v)]) k = some v := by
  induction m with
  | nil => simp [mapGet]
  | cons p rest ih =>
    by_cases hp : p.1 = k
    · simp [mapGet, hp] at h
    · simp only [mapGet, hp, if_neg hp, List.cons_append] at h ⊢
      exact ih h

theorem insert_delete_splice (b t : List Char) (idx len : Nat) :
    insertText (deleteText b idx len) idx t = b.take idx ++ t ++ b.drop (idx + len) := by
  unfold insertText deleteText
  by_cases h : idx ≤ b.length
  · have h1 : (b.take idx).length = idx := by simp [h]
    rw [List.take_append_eq_append_take, List.take_take, h1]
    rw [List.drop_append_eq_append_drop, h1]
    simp
  · push_neg at h
    have h1 : b.take idx = b := List.take_of_length_le (le_of_lt h)
    have h3 : b.drop (idx + len) = [] := List.drop_eq_nil_of_le (by omega)
    have h4 : (b.take idx ++ b.drop (idx + len)).take idx = b := by
      rw [h1, h3]
      simpa using List.take_of_length_le (le_of_lt h)
    have h5 : (b.take idx ++ b.drop (idx + len)).drop idx = [] := by
      rw [h1, h3]
      simpa using List.drop_eq_nil_of_le (le_of_lt h)
    rw [h4, h5, h1, h3]

theorem replaceRange_no_locks (d : OTDoc) (now idx len : Nat) (t : List Char) (u : String)
    (h : d.rangeLocks = []) :
    replaceRange d now idx len t u =
      (.ok { entry := { data := .replace idx len t, userId := u,
                        version := d.version + 1, timestamp := now },
             delivered := notifySubscribers
               { data := .replace idx len t, userId := u,
                 version := d.version + 1, timestamp := now } d.changeSubscribers },
       { d with rangeLocks := [],
                buffer := insertText (deleteText d.buffer idx len) idx t,
                version := d.version + 1,
                changeLog := trimLog (d.changeLog ++
                  [{ data := .replace idx len t, userId := u,
                     version := d.version + 1, timestamp := now }]) }) := by
  simp [replaceRange, h, isRangeLocked, transformIndex, logChange]

theorem deleteRange_no_locks (d : OTDoc) (now idx len : Nat) (u : String)
    (h : d.rangeLocks = []) :
    deleteRange d now idx len u =
      (.ok { entry := { data := .delete idx len, userId := u,
                        version := d.version + 1, timestamp := now },
             delivered := notifySubscribers
               { data := .delete idx len, userId := u,
                 version := d.version + 1, timestamp := now } d.changeSubscribers },
       { d with rangeLocks := [],
                buffer := deleteText d.buffer idx len,
                version := d.version + 1,
                changeLog := trimLog (d.changeLog ++
                  [{ data := .delete idx len, userId := u,
                     version := d.version + 1, timestamp := now }]) }) := by
  simp [deleteRange, h, isRangeLocked, transformIndex, logChange]

theorem insertAt_no_locks (d : OTDoc) (now idx : Nat) (t : List Char) (u : String)
    (h : d.rangeLocks = []) :
    insertAt d now idx t u =
      (.ok { entry := { data := .insert idx t, userId := u,
                        version := d.version + 1, timestamp := now },
             delivered := notifySubscribers
               { data := .insert idx t, userId := u,
                 version := d.version + 1, timestamp := now } d.changeSubscribers },
       { d with rangeLocks := [],
                buffer := insertText d.buffer idx t,
                version := d.version + 1,
                changeLog := trimLog (d.changeLog ++
                  [{ data := .insert idx t, userId := u,
                     version := d.version + 1, timestamp := now }]) }) := by
  simp [insertAt, h, isRangeLocked, transformIndex, logChange]

theorem applyQuickCorrection_no_locks (d : OTDoc) (now : Nat) (u : String) (idx len : Nat)
    (orig corr : List Char) (alts : List (List Char))
    (hlocks : d.rangeLocks = [])
    (hlen : d.corrections.length < 100) :
    applyQuickCorrection d now u idx len orig corr alts =
      (.ok { correctionId := d.correctionCounter + 1, userId := u,
             range := ⟨idx, corr.length⟩, original := orig, applied := corr,
             alternates := alts, timestamp := now, version := d.version + 1 + 1 },
       { d with
           correctionCounter := d.correctionCounter + 1,
           rangeLocks := [],
           buffer := insertText (deleteText d.buffer idx len) idx corr,
           version := d.version + 1 + 1,
           changeLog := trimLog (trimLog (d.changeLog ++
               [{ data := .delete idx len, userId := u,
                  version := d.version + 1, timestamp := now }]) ++
             [{ data := .insert idx corr, userId := u,
                version := d.version + 1 + 1, timestamp := now }]),
           corrections := d.corrections ++
             [(d.correctionCounter + 1,
               { correctionId := d.correctionCounter + 1, userId := u,
                 range := ⟨idx, corr.length⟩, original := orig, applied := corr,
                 alternates := alts, timestamp := now, version := d.version + 1 + 1 })] }) := by
  have hno : ¬ (d.corrections.length + 1 > 100) := by omega
  simp [applyQuickCorrection, deleteRange, insertAt, isRangeLocked, logChange,
        transformIndex, hlocks, hno]

theorem revertCorrection_eval (d : OTDoc) (now cid : Nat) (u : String) (c : Correction)
    (hc : mapGet d.corrections cid = some c) (hlocks : d.rangeLocks = []) :
    revertCorrection d now cid u =
      (.ok { correctionId := cid, reverted := true, originalText := c.original,
             version := d.version + 1 + 1 },
       { d with rangeLocks := [],
                buffer := insertText (deleteText d.buffer c.range.index c.range.length)
                            c.range.index c.original,
                version := d.version + 1 + 1,
                changeLog := trimLog (trimLog (d.changeLog ++
                    [{ data := .delete c.range.index c.range.length, userId := u,
                       version := d.version + 1, timestamp := now }]) ++
                  [{ data := .insert c.range.index c.original, userId := u,
                     version := d.version + 1 + 1, timestamp := now }]),
                corrections := mapSet d.corrections cid
                  { c with reverted := true, revertedBy := some u,
                           revertedAt := some now } }) := by
  simp [revertCorrection, deleteRange, insertAt, isRangeLocked, logChange,
        transformIndex, hc, hlocks]

theorem revertCorrection_ok (d : OTDoc) (now cid : Nat) (u : String) (c : Correction)
    (hc : mapGet d.corrections cid = some c) (hlocks : d.rangeLocks = []) :
    isOk (revertCorrection d now cid u).1 = true := by
  rw [revertCorrection_eval d now cid u c hc hlocks]
  rfl

theorem splice_twice_restore (b orig corr : List Char) (idx len : Nat)
    (hidx : idx + len ≤ b.length) (horig : orig = getRangeText b idx len) :
    insertText (deleteText (insertText (deleteText b idx len) idx corr) idx corr.length)
      idx orig = b := by
  rw [insert_delete_splice, insert_delete_splice]
  have hlen1 : (b.take idx).length = idx := by
    simp
    omega
  have hlen2 : (b.take idx ++ corr).length = idx + corr.length := by
    simp [hlen1]
  have htake : (b.take idx ++ corr ++ b.drop (idx + len)).take idx = b.take idx := by
    rw [List.append_assoc]
    exact List.take_left' hlen1
  have hdrop : (b.take idx ++ corr ++ b.drop (idx + len)).drop (idx + corr.length) =
      b.drop (idx + len) := List.drop_left' hlen2
  rw [htake, hdrop, horig]
  have hdd : b.drop (idx + len) = (b.drop idx).drop len := by
    rw [List.drop_drop]
  rw [hdd]
  show b.take idx ++ (b.drop idx).take len ++ ((b.drop idx).drop len) = b
  rw [List.append_assoc, List.take_append_drop len (b.drop idx),
      List.take_append_drop idx b]

/-! ### Claim theorems -/

/-- C1: the claim reads "for every open transaction, calling
rollbackTransaction leaves the externally observable buffer content and
the document version identical to what they were immediately before
beginTransaction". The code applies in-transaction mutations to the
buffer immediately and `rollbackTransaction` undoes nothing, so after
begin, one insert and rollback the version is one higher and the buffer
differs — exactly the scenario whose opposite the repository's own test
suite expects. -/
theorem c1_rollback_leaves_edits_applied :
    c1run.version = c1doc.version + 1 ∧ c1run.buffer ≠ c1doc.buffer := by
  constructor
  · rfl
  · decide

/-- C2: the claim reads "commitTransaction advances the document version
by exactly 1 (not K), and changesSince(startVersion) after the commit
returns exactly one new ChangeRecord". The code increments the version
once per in-transaction primitive call and `commitTransaction` adds
nothing: after a transaction with K = 2 buffered inserts the version has
advanced by 2 and `getChangesSince` of the start version returns 2
records — again the opposite of the repository's own tests. -/
theorem c2_commit_version_and_log_counts :
    c2run.version = c2doc.version + 2 ∧
    (getChangesSince c2run c2doc.version).length = 2 := by
  constructor
  · rfl
  · rfl

/-- C3, counterexample: at time 100 the only lock of `c3doc` (held by
alice, expired at 50) is not an unexpired lock of a different user, so
the claim "lockRange succeeds iff no existing unexpired lock held by a
different user overlaps" demands success for bob — but `lockRange`
never tests expiry and fails. -/
theorem c3_expired_lock_blocks_lockRange :
    (∀ q ∈ c3doc.rangeLocks, q.2.userId ≠ "bob" → 100 ≤ q.2.expiresAt →
      ¬(q.2.range.index < 0 + 5 ∧ 0 < q.2.range.index + q.2.range.length)) ∧
    isOk (lockRange c3doc 100 "bob" 0 5 60000).1 = false := by
  constructor
  · decide
  · rfl

/-- C3, amended: `lockRange(u, i, l, dur)` succeeds iff no lock
currently in the lock table — expired or not — held by a different user
overlaps `[i, i+l)` (half-open intersection); on success the returned
handle carries the requested range, owner and expiry `now + dur`, and an
auto-release timer for it at `now + dur` is scheduled. -/
theorem c3_lockRange_checks_table_not_expiry (d : OTDoc) (now : Nat) (u : String)
    (i l dur : Nat) :
    (isOk (lockRange d now u i l dur).1 = true ↔
      ∀ q ∈ d.rangeLocks, q.2.userId ≠ u →
        ¬(q.2.range.index < i + l ∧ i < q.2.range.index + q.2.range.length)) ∧
    (∀ lk, (lockRange d now u i l dur).1 = .ok lk →
      lk.userId = u ∧ lk.range = ⟨i, l⟩ ∧ lk.expiresAt = now + dur ∧
      (now + dur, lk.lockId, u) ∈ (lockRange d now u i l dur).2.lockTimers) := by
  constructor
  · unfold lockRange
    cases hf : d.rangeLocks.find? (lockConflict u ⟨i, l⟩) with
    | none =>
      apply iff_of_true
      · rfl
      · rw [List.find?_eq_none] at hf
        intro q hq hu hcontra
        apply hf q hq
        unfold lockConflict
        simp [hu]
        rw [rangesOverlap_iff]
        exact ⟨hcontra.2, hcontra.1⟩
    | some p =>
      apply iff_of_false
      · simp [isOk]
      · intro hall
        have hmem := List.mem_of_find?_eq_some hf
        have hpred := List.find?_some hf
        unfold lockConflict at hpred
        simp at hpred
        obtain ⟨hov, hu⟩ := hpred
        rw [rangesOverlap_iff] at hov
        exact hall p hmem hu ⟨hov.2, hov.1⟩
  · intro lk hok
    unfold lockRange at hok ⊢
    cases hf : d.rangeLocks.find? (lockConflict u ⟨i, l⟩) with
    | none =>
      rw [hf] at hok
      simp at hok
      subst hok
      simp
    | some p =>
      rw [hf] at hok
      simp at hok

/-- C4: while a range lock held by user A is unexpired, each mutation
primitive (insertAt, deleteRange, replaceRange) called by a different
user B over an overlapping range fails with the range-locked error and
leaves the document state — buffer, version and change log included —
unchanged, while the same three calls issued by A succeed. -/
theorem c4_lock_blocks_other_user_mutations (d : OTDoc) (now lid idx len : Nat)
    (lock : RangeLock) (txt : List Char) (A B : String)
    (hlocks : d.rangeLocks = [(lid, lock)])
    (howner : lock.userId = A)
    (hlive : now ≤ lock.expiresAt)
    (hdiff : B ≠ A)
    (hov1 : rangesOverlap ⟨idx, txt.length⟩ lock.range = true)
    (hov2 : rangesOverlap ⟨idx, len⟩ lock.range = true) :
    (insertAt d now idx txt B = (.error "Range is locked by another user", d)) ∧
    (deleteRange d now idx len B = (.error "Range is locked by another user", d)) ∧
    (replaceRange d now idx len txt B = (.error "Range is locked by another user", d)) ∧
    isOk (insertAt d now idx txt A).1 = true ∧
    isOk (deleteRange d now idx len A).1 = true ∧
    isOk (replaceRange d now idx len txt A).1 = true := by
  have hAB : lock.userId ≠ B := by
    rw [howner]
    exact fun hEq => hdiff hEq.symm
  have hc1 : isRangeLocked now ⟨idx, txt.length⟩ B d.rangeLocks = (true, d.rangeLocks) := by
    rw [hlocks]
    exact isRangeLocked_single_conflict now _ B lid lock hlive hAB hov1
  have hc2 : isRangeLocked now ⟨idx, len⟩ B d.rangeLocks = (true, d.rangeLocks) := by
    rw [hlocks]
    exact isRangeLocked_single_conflict now _ B lid lock hlive hAB hov2
  have ho1 : (isRangeLocked now ⟨idx, txt.length⟩ A d.rangeLocks).1 = false := by
    rw [hlocks, ← howner]
    rw [isRangeLocked_single_owner now _ lid lock hlive]
  have ho2 : (isRangeLocked now ⟨idx, len⟩ A d.rangeLocks).1 = false := by
    rw [hlocks, ← howner]
    rw [isRangeLocked_single_owner now _ lid lock hlive]
  exact ⟨insertAt_conflict d now idx txt B hc1,
         deleteRange_conflict d now idx len B hc2,
         replaceRange_conflict d now idx len txt B hc2,
         insertAt_ok d now idx txt A ho1,
         deleteRange_ok d now idx len A ho2,
         replaceRange_ok d now idx len txt A ho2⟩

/-- C4, witness: user A locks `[10, 30)` (live at time 50); an insert of
"xy" at 15 and a delete/replace of `[15, 20)` by user B fail with the
range-locked error and change nothing, while the same calls by A
succeed. -/
theorem c4_witness :
    (insertAt c4doc 50 15 ['x', 'y'] "B" =
      (.error "Range is locked by another user", c4doc)) ∧
    (deleteRange c4doc 50 15 5 "B" =
      (.error "Range is locked by another user", c4doc)) ∧
    (replaceRange c4doc 50 15 5 ['x', 'y'] "B" =
      (.error "Range is locked by another user", c4doc)) ∧
    isOk (insertAt c4doc 50 15 ['x', 'y'] "A").1 = true ∧
    isOk (deleteRange c4doc 50 15 5 "A").1 = true ∧
    isOk (replaceRange c4doc 50 15 5 ['x', 'y'] "A").1 = true :=
  c4_lock_blocks_other_user_mutations c4doc 50 1 15 5 c4lock ['x', 'y'] "A" "B"
    rfl rfl (by decide) (by decide) (by decide) (by decide)

/-- C5, counterexample: after the suggestion of `c5doc` is accepted its
status is `accepted` (non-pending), yet `rejectSuggestion` on it
succeeds — the source never checks the status before rejecting — so the
claim "every rejectSuggestion on the now non-pending S fails with an
InvalidState error" is false. -/
theorem c5_reject_after_accept_succeeds :
    (mapGet (acceptSuggestion c5doc 1 1 "human").2.suggestions 1).map Suggestion.status =
      some SuggStatus.accepted ∧
    isOk (rejectSuggestion (acceptSuggestion c5doc 1 1 "human").2 2 1 "human" "no").1 =
      true := by
  constructor
  · rfl
  · rfl

/-- C5, amended: the first acceptSuggestion on a pending suggestion S
succeeds and replaces S's range in the buffer with S.newText, and every
subsequent acceptSuggestion on S fails with the invalid-state error
"Suggestion already accepted"; rejectSuggestion on the now non-pending
S, however, does not fail — it overwrites the status to rejected. -/
theorem c5_accept_once_amended (d : OTDoc) (now now2 now3 : Nat)
    (u u2 u3 reason : String) (sid : Nat) (s : Suggestion)
    (hs : mapGet d.suggestions sid = some s)
    (hpending : s.status = SuggStatus.pending)
    (hlocks : d.rangeLocks = []) :
    isOk (acceptSuggestion d now sid u).1 = true ∧
    (acceptSuggestion d now sid u).2.buffer =
      d.buffer.take s.range.index ++ s.newText ++
        d.buffer.drop (s.range.index + s.range.length) ∧
    (mapGet (acceptSuggestion d now sid u).2.suggestions sid).map Suggestion.status =
      some SuggStatus.accepted ∧
    (acceptSuggestion (acceptSuggestion d now sid u).2 now2 sid u2).1 =
      .error "Suggestion already accepted" ∧
    isOk (rejectSuggestion (acceptSuggestion d now sid u).2 now3 sid u3 reason).1 =
      true := by
  have hacc : acceptSuggestion d now sid u =
      (.ok { s with status := SuggStatus.accepted, acceptedBy := some u,
                    acceptedAt := some now },
       { d with rangeLocks := [],
                buffer := insertText (deleteText d.buffer s.range.index s.range.length)
                            s.range.index s.newText,
                version := d.version + 1,
                changeLog := trimLog (d.changeLog ++
                  [{ data := .replace s.range.index s.range.length s.newText, userId := u,
                     version := d.version + 1, timestamp := now }]),
                suggestions := mapSet d.suggestions sid
                  { s with status := SuggStatus.accepted,
                           acceptedBy := some u, acceptedAt := some now } }) := by
    simp only [acceptSuggestion, hs]
    rw [if_neg (by simp [hpending])]
    rw [replaceRange_no_locks d now s.range.index s.range.length s.newText u hlocks]
  have hget := mapGet_mapSet_self d.suggestions sid
    { s with status := SuggStatus.accepted, acceptedBy := some u,
             acceptedAt := some now } s hs
  refine ⟨?_, ?_, ?_, ?_, ?_⟩
  · rw [hacc]
    rfl
  · rw [hacc]
    exact insert_delete_splice d.buffer s.newText s.range.index s.range.length
  · rw [hacc]
    simp only []
    rw [hget]
    rfl
  · rw [hacc]
    unfold acceptSuggestion
    simp only []
    rw [hget]
    rfl
  · rw [hacc]
    unfold rejectSuggestion
    simp only []
    rw [hget]
    rfl

/-- C5, witness: accepting the pending suggestion of `c5doc` succeeds
and splices "Howdy" over "Hello"; a second accept fails with the
already-accepted error; a reject of the accepted suggestion succeeds. -/
theorem c5_witness :
    isOk (acceptSuggestion c5doc 1 1 "human").1 = true ∧
    (acceptSuggestion c5doc 1 1 "human").2.buffer =
      c5doc.buffer.take c5sugg.range.index ++ c5sugg.newText ++
        c5doc.buffer.drop (c5sugg.range.index + c5sugg.range.length) ∧
    (mapGet (acceptSuggestion c5doc 1 1 "human").2.suggestions 1).map Suggestion.status =
      some SuggStatus.accepted ∧
    (acceptSuggestion (acceptSuggestion c5doc 1 1 "human").2 2 1 "human").1 =
      .error "Suggestion already accepted" ∧
    isOk (rejectSuggestion (acceptSuggestion c5doc 1 1 "human").2 3 1 "human" "late").1 =
      true :=
  c5_accept_once_amended c5doc 1 2 3 "human" "human" "human" "late" 1 c5sugg
    rfl rfl rfl

/-- C6: with no transaction open, every sequence of successful
mutation-primitive calls (insertAt, deleteRange, replaceRange,
applyDelta) advances the document version by exactly the number of
calls, one increment per call. -/
theorem c6_version_adds_op_count (d : OTDoc) (now : Nat) (ops : List MutOp) (d' : OTDoc)
    (hscope : d.currentTransaction = none)
    (h : runMutOps d now ops = some d') :
    d'.version = d.version + ops.length := by
  clear hscope
  exact runMutOps_version d now ops d' h

/-- C6, witness: four successful calls — one of each primitive — on a
fresh document advance the version from 0 to 4. -/
theorem c6_witness : c6run.version = c6doc.version + c6ops.length :=
  c6_version_adds_op_count c6doc 0 c6ops c6run rfl rfl

/-- C7: when a change is logged, every subscriber is invoked
synchronously in registration order even when an earlier callback
throws — the subscribers after the throwing one still receive the
change — and the log entry itself is stored intact as the newest log
entry. -/
theorem c7_delivery_survives_throwing_subscriber (d : OTDoc) (now : Nat)
    (u : String) (data : ChangeData) (i : Nat)
    (cb : ChangeRecord → Except String Unit)
    (pre post : List (Nat × (ChangeRecord → Except String Unit)))
    (hsubs : d.changeSubscribers = pre ++ (i, cb) :: post)
    (hthrows : ∃ msg, cb { data := data, userId := u, version := d.version,
                           timestamp := now } = .error msg) :
    ((logChange d now u data).1.delivered.map Prod.fst =
      pre.map Prod.fst ++ i :: post.map Prod.fst) ∧
    ((logChange d now u data).2.changeLog.getLast? =
      some { data := data, userId := u, version := d.version, timestamp := now }) := by
  clear hthrows
  constructor
  · have hall := notifySubscribers_fst
      { data := data, userId := u, version := d.version, timestamp := now }
      d.changeSubscribers
    rw [hsubs] at hall
    simp only [logChange]
    rw [hsubs]
    simpa using hall
  · exact trimLog_getLast _ _

/-- C7, witness: in `c7doc` subscriber 1 throws on every change;
logging a change still delivers to subscriber 2 after it, in order, and
the entry is the newest log entry. -/
theorem c7_witness :
    ((logChange c7doc 5 "u" (ChangeData.insert 0 ['a'])).1.delivered.map Prod.fst =
      List.map Prod.fst ([] : List (Nat × (ChangeRecord → Except String Unit))) ++
        1 :: List.map Prod.fst [(2, c7ok)]) ∧
    ((logChange c7doc 5 "u" (ChangeData.insert 0 ['a'])).2.changeLog.getLast? =
      some { data := ChangeData.insert 0 ['a'], userId := "u",
             version := c7doc.version, timestamp := 5 }) :=
  c7_delivery_survives_throwing_subscriber c7doc 5 "u" (ChangeData.insert 0 ['a'])
    1 c7cb [] [(2, c7ok)] rfl ⟨"boom", rfl⟩

/-- C8, counterexample: after `applyQuickCorrection` and one
`revertCorrection` the record of `c8reverted` is marked reverted, yet a
second `revertCorrection` on the same id succeeds — `revertCorrection`
only fails on an unknown id — so the claim "a second revertCorrection on
the same id fails with an error" is false. -/
theorem c8_second_revert_succeeds :
    (mapGet c8reverted.corrections 1).map Correction.reverted = some true ∧
    isOk (revertCorrection c8reverted 2 1 "human").1 = true := by
  constructor
  · rfl
  · rfl

/-- C8, amended: for a correction recorded by `applyQuickCorrection`
whose `original` argument is the text actually in the corrected range,
`revertCorrection` restores the buffer to exactly its prior content and
marks the record reverted; a second `revertCorrection` on the same id,
however, does not fail — it succeeds and re-applies the delete+insert. -/
theorem c8_revert_restores_amended (d : OTDoc) (now now2 now3 : Nat) (u u2 u3 : String)
    (idx len : Nat) (orig corr : List Char) (alts : List (List Char))
    (hlocks : d.rangeLocks = [])
    (hlen : d.corrections.length < 100)
    (hfresh : mapGet d.corrections (d.correctionCounter + 1) = none)
    (hidx : idx + len ≤ d.buffer.length)
    (horig : orig = getRangeText d.buffer idx len) :
    isOk (applyQuickCorrection d now u idx len orig corr alts).1 = true ∧
    isOk (revertCorrection (applyQuickCorrection d now u idx len orig corr alts).2
        now2 (d.correctionCounter + 1) u2).1 = true ∧
    (revertCorrection (applyQuickCorrection d now u idx len orig corr alts).2
        now2 (d.correctionCounter + 1) u2).2.buffer = d.buffer ∧
    (mapGet (revertCorrection (applyQuickCorrection d now u idx len orig corr alts).2
        now2 (d.correctionCounter + 1) u2).2.corrections (d.correctionCounter + 1)).map
      Correction.reverted = some true ∧
    isOk (revertCorrection
        (revertCorrection (applyQuickCorrection d now u idx len orig corr alts).2
          now2 (d.correctionCounter + 1) u2).2 now3 (d.correctionCounter + 1) u3).1 =
      true := by
  have happly := applyQuickCorrection_no_locks d now u idx len orig corr alts hlocks hlen
  have hgetA : mapGet (applyQuickCorrection d now u idx len orig corr alts).2.corrections
      (d.correctionCounter + 1) =
      some { correctionId := d.correctionCounter + 1, userId := u,
             range := ⟨idx, corr.length⟩, original := orig, applied := corr,
             alternates := alts, timestamp := now, version := d.version + 1 + 1 } := by
    rw [happly]
    exact mapGet_append_fresh d.corrections (d.correctionCounter + 1) _ hfresh
  have hlocksA : (applyQuickCorrection d now u idx len orig corr alts).2.rangeLocks = [] := by
    rw [happly]
  have hrev := revertCorrection_eval (applyQuickCorrection d now u idx len orig corr alts).2
    now2 (d.correctionCounter + 1) u2 _ hgetA hlocksA
  refine ⟨?_, ?_, ?_, ?_, ?_⟩
  · rw [happly]
    rfl
  · rw [hrev]
    rfl
  · rw [hrev, happly]
    exact splice_twice_restore d.buffer orig corr idx len hidx horig
  · rw [hrev, happly]
    have hbase : mapGet (d.corrections ++
        [(d.correctionCounter + 1,
          { correctionId := d.correctionCounter + 1, userId := u,
            range := ⟨idx, corr.length⟩, original := orig, applied := corr,
            alternates := alts, timestamp := now, version := d.version + 1 + 1 })])
        (d.correctionCounter + 1) = some
          { correctionId := d.correctionCounter + 1, userId := u,
            range := ⟨idx, corr.length⟩, original := orig, applied := corr,
            alternates := alts, timestamp := now, version := d.version + 1 + 1 } :=
      mapGet_append_fresh d.corrections (d.correctionCounter + 1) _ hfresh
    rw [mapGet_mapSet_self _ _ _ _ hbase]
    rfl
  · refine revertCorrection_ok _ now3 (d.correctionCounter + 1) u3 ?c ?hc ?hl
    case hc =>
      rw [hrev, happly]
      exact mapGet_mapSet_self _ _ _ _
        (mapGet_append_fresh d.corrections (d.correctionCounter + 1) _ hfresh)
    case hl =>
      rw [hrev]

/-- C8, witness: correcting "teh" to "the" in "teh cat" and reverting
restores "teh cat" exactly and marks the record reverted; a second
revert still succeeds. -/
theorem c8_witness :
    isOk (applyQuickCorrection c8doc 0 "bot" 0 3 "teh".toList "the".toList []).1 = true ∧
    isOk (revertCorrection (applyQuickCorrection c8doc 0 "bot" 0 3 "teh".toList
        "the".toList []).2 1 1 "human").1 = true ∧
    (revertCorrection (applyQuickCorrection c8doc 0 "bot" 0 3 "teh".toList
        "the".toList []).2 1 1 "human").2.buffer = c8doc.buffer ∧
    (mapGet (revertCorrection (applyQuickCorrection c8doc 0 "bot" 0 3 "teh".toList
        "the".toList []).2 1 1 "human").2.corrections 1).map Correction.reverted =
      some true ∧
    isOk (revertCorrection (revertCorrection (applyQuickCorrection c8doc 0 "bot" 0 3
        "teh".toList "the".toList []).2 1 1 "human").2 2 1 "human").1 = true :=
  c8_revert_restores_amended c8doc 0 1 2 "bot" "human" "human" 0 3
    "teh".toList "the".toList [] rfl (by decide) rfl (by decide) (by decide)

/-- C9, counterexample: with request 1 pending, `destroy` clears the
pending-request map without settling the promise — nothing for id 1 is
ever appended to the settlement log, not even by the later timeout —
so the claim "every still-pending request promise is rejected" is
false. -/
theorem c9_destroy_leaves_promise_unsettled :
    1 ∈ c9bridge.pendingRequests ∧
    c9bridge.destroy.settled.filter (fun p => p.1 == 1) = [] ∧
    (c9bridge.destroy.fireTimeout 1).settled.filter (fun p => p.1 == 1) = [] := by
  refine ⟨by decide, rfl, rfl⟩

/-- C9, amended: `destroy` removes the message listener and clears the
pending-request map, but settles nothing: the settlement log is
unchanged, so still-pending promises are neither resolved nor rejected,
and the 30-second timeouts scheduled by `run` no-op afterwards because
the map entries are gone. -/
theorem c9_destroy_amended (b : DirectorBridge) :
    b.destroy.pendingRequests = [] ∧
    b.destroy.settled = b.settled ∧
    b.destroy.listenerActive = false ∧
    ∀ rid, b.destroy.fireTimeout rid = b.destroy := by
  refine ⟨rfl, rfl, rfl, ?_⟩
  intro rid
  unfold DirectorBridge.fireTimeout DirectorBridge.destroy
  simp

/-- C10: accepting a pending suggestion whose range overlaps a live
lock of another user throws the range-locked error and leaves the whole
document state unchanged — in particular the suggestion record stays
pending with no acceptedBy/acceptedAt, so the accept can be retried
after the lock is released. -/
theorem c10_accept_on_locked_range_errors (d : OTDoc) (now sid lid : Nat)
    (lock : RangeLock) (s : Suggestion) (u : String)
    (hs : mapGet d.suggestions sid = some s)
    (hpending : s.status = SuggStatus.pending)
    (hlocks : d.rangeLocks = [(lid, lock)])
    (hlive : now ≤ lock.expiresAt)
    (howner : lock.userId ≠ u)
    (hov : rangesOverlap ⟨s.range.index, s.range.length⟩ lock.range = true) :
    acceptSuggestion d now sid u = (.error "Range is locked by another user", d) := by
  have hc : isRangeLocked now ⟨s.range.index, s.range.length⟩ u d.rangeLocks =
      (true, d.rangeLocks) := by
    rw [hlocks]
    exact isRangeLocked_single_conflict now _ u lid lock hlive howner hov
  simp only [acceptSuggestion, hs]
  rw [if_neg (by simp [hpending])]
  rw [replaceRange_conflict d now s.range.index s.range.length s.newText u hc]

/-- C10, witness: accepting the pending suggestion of `c10doc` (range
`[2, 5)`) as user B while user A holds the live lock over `[0, 4)`
fails with the range-locked error and leaves the document unchanged. -/
theorem c10_witness :
    acceptSuggestion c10doc 50 1 "B" = (.error "Range is locked by another user", c10doc) :=
  c10_accept_on_locked_range_errors c10doc 50 1 1 c10lock c10sugg "B"
    rfl rfl rfl (by decide) (by decide) (by decide)

end Woolf
